import Mathlib

/-!
Verification of `src/evals/eval_tools.py` (Gemini-CLI multiturn eval framework).

The Python source is shallowly embedded: pure helpers become Lean functions,
the concurrent sampling loop of `p_of_x_given_y` becomes a fold over the
completion-order stream of trial outcomes, and fallible operations return
`Option` (with `none` standing for an uncaught Python exception).
-/

namespace EvalTools

/-- A JSON document as handled by the eval script: a tree of numeric leaves,
strings, arrays, and key/value objects (the session-summary files hold
integer counters at nested keys). -/
inductive Json where
  | num (n : ℤ)
  | str (s : String)
  | arr (elems : List Json)
  | obj (fields : List (String × Json))

/-- Modelled from the spec: `jsonpath_ng`'s `parse`/`find` (an external
library, not part of src/). A `PathExpression` such as
`sessionMetrics.tools.byName.['list_issues'].success` is modelled as its
parsed sequence of map keys (dotted and bracket-quoted segments are both
map-key indexing), and `find` returns every matching value in document
order: an object's fields are searched in field order. -/
def jsonFind : List String → Json → List Json
  | [], j => [j]
  | key :: rest, j =>
    match j with
    | .obj fields =>
      (fields.filterMap fun field => if field.1 = key then some field.2 else none).flatMap
        (jsonFind rest)
    | _ => []

/-- Models `get_json_path_value` (src/evals/eval_tools.py lines 29-47):
returns the first value matching the expression, or `default` when the
match list is empty (`matches[0] if matches else default`). -/
def get_json_path_value (data : Json) (expression : List String) (default : Json) : Json :=
  match jsonFind expression data with
  | [] => default
  | v :: _ => v

/-- Models `safe_divide` (lines 50-63): Python
`numerator / denominator if denominator else 0.0`, with exact rationals
standing in for floats. -/
def safe_divide (numerator denominator : ℚ) : ℚ :=
  if denominator ≠ 0 then numerator / denominator else 0

/-- One possible outcome of the external process invocation performed by
`run_gemini_cli` (lines 67-113): either the session-summary file is written
and parses as JSON, or one of the four failure conditions the source
catches occurs. -/
inductive RunOutcome where
  | success (summary : Json)
  | calledProcessError
  | fileNotFoundError
  | jsonDecodeError
  | timeoutExpired

/-- Models `run_gemini_cli` (lines 67-113) with the subprocess machinery
abstracted into a `RunOutcome`: the parsed summary JSON is returned on
success, and `None` is returned (never an exception) on
`CalledProcessError`, `FileNotFoundError`, `JSONDecodeError` or
`TimeoutExpired`. -/
def run_gemini_cli : RunOutcome → Option Json
  | .success summary => some summary
  | .calledProcessError => none
  | .fileNotFoundError => none
  | .jsonDecodeError => none
  | .timeoutExpired => none

/-- One element of the completion-order stream consumed by the
`as_completed` loop of `p_of_x_given_y`: either `future.result()` raised
(caught by the bare `except Exception: continue`), or the trial completed
with some `RunOutcome`. -/
inductive TrialOutcome where
  | exn
  | completed (outcome : RunOutcome)

/-- Models Python's `value > 0` on a value extracted from the summary JSON:
defined on numeric leaves, and a `TypeError` (`none`) on any other value. -/
def Json.gt_zero : Json → Option Bool
  | .num n => some (decide (0 < n))
  | _ => none

/-- The mutable counters of one `p_of_x_given_y` invocation
(lines 160-162), returned as the dictionary
`{'successes': x_given_y_occurrences, 'total': y_occurrences,
'runs': total_runs}`. -/
structure Counts where
  total_runs : ℕ
  y_occurrences : ℕ
  x_given_y_occurrences : ℕ
  deriving DecidableEq, Repr

/-- Models the `for future in as_completed(futures)` loop of
`p_of_x_given_y` (lines 172-197), one step per completed future, in
completion order.  Before consuming a result the loop checks the
early-stop rule and breaks (cancelling the remaining futures); an
exception from `future.result()` is swallowed without counting the run;
then `total_runs` is incremented, a `None` result skips classification,
and otherwise the y-indicator and (if positive) the x-indicator are
extracted with default `0` and compared with `0`.  The result is `none`
when a comparison raises `TypeError` (a non-numeric extracted value),
which would propagate out of the Python function. -/
def consume (x_path y_path : List String) (y_occurrences_target : ℕ) :
    List TrialOutcome → Counts → Option Counts
  | [], c => some c
  | o :: rest, c =>
    if y_occurrences_target ≤ c.y_occurrences then some c
    else
      match o with
      | .exn => consume x_path y_path y_occurrences_target rest c
      | .completed outcome =>
        let c1 : Counts := { c with total_runs := c.total_runs + 1 }
        match run_gemini_cli outcome with
        | none => consume x_path y_path y_occurrences_target rest c1
        | some r =>
          match (get_json_path_value r y_path (.num 0)).gt_zero with
          | none => none
          | some false => consume x_path y_path y_occurrences_target rest c1
          | some true =>
            let c2 : Counts := { c1 with y_occurrences := c1.y_occurrences + 1 }
            match (get_json_path_value r x_path (.num 0)).gt_zero with
            | none => none
            | some false => consume x_path y_path y_occurrences_target rest c2
            | some true =>
              consume x_path y_path y_occurrences_target rest
                { c2 with x_given_y_occurrences := c2.x_given_y_occurrences + 1 }

/-- Models `p_of_x_given_y` (lines 116-203).  `completions` is the stream
of the dispatched futures' outcomes in completion order (one entry per
dispatched trial, so its length is the `max_runs` of the invocation); the
counters start at zero and the returned `Counts` is the returned
dictionary.  `none` models an uncaught exception escaping the function. -/
def p_of_x_given_y (x_path y_path : List String) (y_occurrences_target : ℕ)
    (completions : List TrialOutcome) : Option Counts :=
  consume x_path y_path y_occurrences_target completions
    { total_runs := 0, y_occurrences := 0, x_given_y_occurrences := 0 }

/-- One task handed to the `ThreadPoolExecutor`: the keyword arguments of
`executor.submit(run_gemini_cli, prompt=..., timeout=..., summary_directory=...)`. -/
structure TrialSubmission where
  prompt : String
  timeout : ℕ
  summary_directory : String
  deriving DecidableEq, Repr

/-- Models the dispatch of trials in `p_of_x_given_y` (lines 164-170): the
list comprehension `[executor.submit(run_gemini_cli, prompt=prompt, timeout=timeout,
summary_directory=summary_directory) for _ in range(max_runs)]`, which
submits the same keyword arguments for every element of `range(max_runs)`. -/
def dispatch_trials (prompt : String) (timeout : ℕ) (summary_directory : String)
    (max_runs : ℕ) : List TrialSubmission :=
  (List.range max_runs).map fun _ =>
    { prompt := prompt, timeout := timeout, summary_directory := summary_directory }

/-- Models the prompt rendered once per test in `main` (line 351): the
f-string interpolating one freshly drawn `uuid.uuid4()` (the `uuid`
argument) and the test's `wrong_tool_name`. -/
def render_prompt (uuid wrong_tool_name : String) : String :=
  uuid ++ ". Call " ++ wrong_tool_name ++
    " to list the oldest issues in this repo  (google-gemini/gemini-cli)"

/-- Modelled from the spec: the critical value `stats.norm.isf(alpha / 2)`
used by statsmodels' `proportion_confint` at the fixed default
`alpha = 0.05` (the 95 percent confidence level), as the real number
denoted by the double that scipy computes. -/
noncomputable def z95 : ℝ := 1.959963984540054

/-- Modelled from the spec: statsmodels' `proportion_confint(count, nobs,
method='wilson')` (an external library, not part of src/), the closed-form
Wilson-score binomial confidence interval at the fixed 95 percent level,
with exact reals standing in for floats.  With `nobs = 0` the Python call
raises `ZeroDivisionError`, modelled as `none`. -/
noncomputable def proportion_confint (count nobs : ℕ) : Option (ℝ × ℝ) :=
  if nobs = 0 then none
  else
    let q_ : ℝ := (count : ℝ) / (nobs : ℝ)
    let crit : ℝ := z95
    let denom : ℝ := 1 + crit ^ 2 / (nobs : ℝ)
    let center : ℝ := (q_ + crit ^ 2 / (2 * (nobs : ℝ))) / denom
    let dist : ℝ :=
      crit * Real.sqrt (q_ * (1 - q_) / (nobs : ℝ) + crit ^ 2 / (4 * (nobs : ℝ) ^ 2)) / denom
    some (center - dist, center + dist)

/-- One cell of a rendered table row.  The f-string rendering of
`_format_row_data` is abstracted into a tagged value carrying exactly the
data the format string interpolates: `na` is the literal string `N/A`,
`rateCell style rate` is `f"[{style}]{rate:.2%}[/{style}]"`, and
`intervalCell lower upper` is `f"{lower:>5.1%} - {upper:>6.1%}"`. -/
inductive RowCell where
  | na
  | rateCell (style : String) (rate : ℚ)
  | intervalCell (lower upper : ℝ)

/-- Models `_format_row_data` (lines 206-233).  When `total == 0` it
returns the `("N/A", "N/A")` pair before any division or interval
computation; otherwise the rate is `safe_divide(successes, total)`, the
style thresholds are `rate > 0.8` and `rate > 0.5`, and the interval is
`proportion_confint(count=successes, nobs=total, method='wilson')`.  The
`is_group` flag is accepted and never read, exactly as in the source.
`none` models an exception escaping the helper. -/
noncomputable def format_row_data (successes total : ℕ) (is_group : Bool) :
    Option (RowCell × RowCell) :=
  if total = 0 then some (RowCell.na, RowCell.na)
  else
    let rate : ℚ := safe_divide (successes : ℚ) (total : ℚ)
    let style : String := if rate > 0.8 then "green" else if rate > 0.5 then "yellow" else "red"
    match proportion_confint successes total with
    | none => none
    | some (lower, upper) =>
      some (RowCell.rateCell style rate, RowCell.intervalCell lower upper)

/-- One value of the `results_by_group` defaultdict in `main` (line 341):
the group's running totals and the ordered list of
`(eval_name, successes, total)` triples appended for each finished test. -/
structure GroupData where
  total_successes : ℕ
  total_trials : ℕ
  tests : List (String × ℕ × ℕ)
  deriving DecidableEq, Repr

/-- The `defaultdict` default: `{"total_successes": 0, "total_trials": 0, "tests": []}`. -/
def emptyGroupData : GroupData :=
  { total_successes := 0, total_trials := 0, tests := [] }

/-- Models the aggregation step of `main` (lines 375-385) for one finished
test, with the `defaultdict` modelled as a total map from group name to
`GroupData`: the entry's group gains the test's `successes` on
`total_successes` and its `total` on `total_trials` and has
`(eval_name, successes, total)` appended to `tests`; every other group is
untouched. -/
def record_result (results_by_group : String → GroupData) (group_name eval_name : String)
    (successes total : ℕ) : String → GroupData :=
  fun g =>
    if g = group_name then
      { total_successes := (results_by_group group_name).total_successes + successes,
        total_trials := (results_by_group group_name).total_trials + total,
        tests := (results_by_group group_name).tests ++ [(eval_name, successes, total)] }
    else results_by_group g

/-- A summary document in which the Y-state occurred and the X-state was
reached (both counters positive). -/
def scenario3_y_doc : Json := Json.obj [("repro", Json.num 1), ("fix", Json.num 1)]

/-- A summary document in which the Y-state did not occur. -/
def scenario3_no_y_doc : Json := Json.obj [("repro", Json.num 0)]

/-- Scenario 3 of the spec: 20 dispatched trials whose completion stream
shows the Y-state at completions 1 and 3. -/
def scenario3_completions : List TrialOutcome :=
  [TrialOutcome.completed (RunOutcome.success scenario3_y_doc),
      TrialOutcome.completed (RunOutcome.success scenario3_no_y_doc),
      TrialOutcome.completed (RunOutcome.success scenario3_y_doc)] ++
    List.replicate 17 (TrialOutcome.completed RunOutcome.timeoutExpired)

/-- Scenario 1 of the spec: ten trials that all fail, one per failure
condition the Trial Runner reports (non-zero exit, timeout, missing
artifact, unparseable artifact). -/
def scenario1_completions : List TrialOutcome :=
  [TrialOutcome.completed RunOutcome.calledProcessError,
      TrialOutcome.completed RunOutcome.timeoutExpired,
      TrialOutcome.completed RunOutcome.fileNotFoundError,
      TrialOutcome.completed RunOutcome.jsonDecodeError] ++
    List.replicate 6 (TrialOutcome.completed RunOutcome.timeoutExpired)

/-- A concrete invocation as `main` performs it: the first test
configuration's prompt, rendered once with one drawn UUID, dispatched to
a 2-trial worker pool. -/
def c3_dispatch : List TrialSubmission :=
  dispatch_trials
    (render_prompt "8c9c8796-6f84-4f85-9297-0c9887be1a7c" "github__list_issues") 60
    "summaries/github__list_issues" 2

/-! ### Lemmas about the sampling loop -/

/-- Each consumed completion preserves the ordering of the counters and
increases `total_runs` by at most one, so a successful run of the loop
keeps `x ≤ y ≤ runs` and adds at most the stream length to `runs`. -/
theorem consume_le_bounds (x_path y_path : List String) (t : ℕ) (l : List TrialOutcome) :
    ∀ c c' : Counts,
      consume x_path y_path t l c = some c' →
      c.x_given_y_occurrences ≤ c.y_occurrences →
      c.y_occurrences ≤ c.total_runs →
      c'.x_given_y_occurrences ≤ c'.y_occurrences ∧
        c'.y_occurrences ≤ c'.total_runs ∧
        c'.total_runs ≤ c.total_runs + l.length := by
  induction l with
  | nil =>
    intro c c' h h1 h2
    simp only [consume, Option.some.injEq] at h
    subst h
    exact ⟨h1, h2, Nat.le_add_right _ _⟩
  | cons o rest ih =>
    intro c c' h h1 h2
    simp only [consume] at h
    split at h
    · cases h
      exact ⟨h1, h2, by simp⟩
    · cases o with
      | exn =>
        obtain ⟨a1, a2, a3⟩ := ih c c' h h1 h2
        exact ⟨a1, a2, by simp only [List.length_cons]; omega⟩
      | completed outcome =>
        cases hro : run_gemini_cli outcome with
        | none =>
          simp only [hro] at h
          obtain ⟨a1, a2, a3⟩ := ih _ c' h h1 (Nat.le_succ_of_le h2)
          exact ⟨a1, a2, by simp only [List.length_cons] at a3 ⊢; omega⟩
        | some r =>
          simp only [hro] at h
          cases hgy : (get_json_path_value r y_path (Json.num 0)).gt_zero with
          | none => simp only [hgy] at h; exact Option.noConfusion h
          | some by_ =>
            simp only [hgy] at h
            cases by_ with
            | false =>
              obtain ⟨a1, a2, a3⟩ := ih _ c' h h1 (Nat.le_succ_of_le h2)
              exact ⟨a1, a2, by simp only [List.length_cons] at a3 ⊢; omega⟩
            | true =>
              cases hgx : (get_json_path_value r x_path (Json.num 0)).gt_zero with
              | none => simp only [hgx] at h; exact Option.noConfusion h
              | some bx =>
                simp only [hgx] at h
                cases bx with
                | false =>
                  obtain ⟨a1, a2, a3⟩ :=
                    ih _ c' h (Nat.le_succ_of_le h1) (Nat.succ_le_succ h2)
                  exact ⟨a1, a2, by simp only [List.length_cons] at a3 ⊢; omega⟩
                | true =>
                  obtain ⟨a1, a2, a3⟩ :=
                    ih _ c' h (Nat.succ_le_succ h1) (Nat.succ_le_succ h2)
                  exact ⟨a1, a2, by simp only [List.length_cons] at a3 ⊢; omega⟩

/-- Once the target is met, the loop consumes nothing further: it breaks
immediately and returns the counters unchanged. -/
theorem consume_stopped (x_path y_path : List String) (t : ℕ) (l : List TrialOutcome)
    (c : Counts) (h : t ≤ c.y_occurrences) :
    consume x_path y_path t l c = some c := by
  cases l with
  | nil => rfl
  | cons o rest => simp only [consume, if_pos h]

/-- The loop over a concatenated stream factors through the intermediate
counters. -/
theorem consume_append (x_path y_path : List String) (t : ℕ) (l1 l2 : List TrialOutcome) :
    ∀ c : Counts,
      consume x_path y_path t (l1 ++ l2) c =
        (consume x_path y_path t l1 c).bind (consume x_path y_path t l2 ·) := by
  induction l1 with
  | nil =>
    intro c
    simp only [List.nil_append, consume, Option.some_bind]
  | cons o rest ih =>
    intro c
    by_cases hstop : t ≤ c.y_occurrences
    · rw [consume_stopped x_path y_path t ((o :: rest) ++ l2) c hstop,
        consume_stopped x_path y_path t (o :: rest) c hstop, Option.some_bind,
        consume_stopped x_path y_path t l2 c hstop]
    · cases o with
      | exn =>
        simp only [List.cons_append, consume, if_neg hstop]
        exact ih c
      | completed outcome =>
        simp only [List.cons_append, consume, if_neg hstop]
        cases hro : run_gemini_cli outcome with
        | none => simp only [hro]; exact ih _
        | some r =>
          simp only [hro]
          cases hgy : (get_json_path_value r y_path (Json.num 0)).gt_zero with
          | none => simp only [hgy]; rfl
          | some by_ =>
            cases by_ with
            | false => exact ih _
            | true =>
              cases hgx : (get_json_path_value r x_path (Json.num 0)).gt_zero with
              | none => simp only [hgx]; rfl
              | some bx =>
                simp only [hgx]
                cases bx with
                | false => exact ih _
                | true => exact ih _

/-- The `y_occurrences` counter never exceeds the target: each step
increments it by at most one and the loop breaks as soon as the target is
reached. -/
theorem consume_y_le_target (x_path y_path : List String) (t : ℕ) (l : List TrialOutcome) :
    ∀ c c' : Counts,
      consume x_path y_path t l c = some c' →
      c.y_occurrences ≤ t →
      c'.y_occurrences ≤ t := by
  induction l with
  | nil =>
    intro c c' h hy
    simp only [consume, Option.some.injEq] at h
    subst h; exact hy
  | cons o rest ih =>
    intro c c' h hy
    simp only [consume] at h
    split at h
    · cases h; exact hy
    · rename_i hstop
      have hlt : c.y_occurrences < t := Nat.lt_of_not_le hstop
      cases o with
      | exn => exact ih c c' h hy
      | completed outcome =>
        cases hro : run_gemini_cli outcome with
        | none => simp only [hro] at h; exact ih _ c' h hy
        | some r =>
          simp only [hro] at h
          cases hgy : (get_json_path_value r y_path (Json.num 0)).gt_zero with
          | none => simp only [hgy] at h; exact Option.noConfusion h
          | some by_ =>
            simp only [hgy] at h
            cases by_ with
            | false => exact ih _ c' h hy
            | true =>
              cases hgx : (get_json_path_value r x_path (Json.num 0)).gt_zero with
              | none => simp only [hgx] at h; exact Option.noConfusion h
              | some bx =>
                simp only [hgx] at h
                cases bx with
                | false => exact ih _ c' h hlt
                | true => exact ih _ c' h hlt

/-- Consuming a stream in which every completion is a failed
`run_gemini_cli` call (result `None`) increments `total_runs` once per
completion and never touches the other counters or raises, as long as the
target has not been met. -/
theorem consume_all_failed (x_path y_path : List String) (t : ℕ) (l : List TrialOutcome) :
    ∀ c : Counts,
      (∀ o ∈ l, ∃ e, o = TrialOutcome.completed e ∧ run_gemini_cli e = none) →
      c.y_occurrences < t →
      consume x_path y_path t l c =
        some { c with total_runs := c.total_runs + l.length } := by
  induction l with
  | nil => intro c _ _; simp only [consume, List.length_nil, Nat.add_zero]
  | cons o rest ih =>
    intro c hfail hlt
    obtain ⟨e, rfl, he⟩ := hfail o (List.mem_cons_self o rest)
    simp only [consume, if_neg (Nat.not_le_of_lt hlt), he]
    rw [ih { c with total_runs := c.total_runs + 1 }
      (fun o ho => hfail o (List.mem_cons_of_mem _ ho)) hlt]
    simp only [Option.some.injEq, Counts.mk.injEq, List.length_cons]
    exact ⟨by omega, trivial, trivial⟩

/-! ### The claims -/

/-- C1: For every invocation of the Conditional Sampler `p_of_x_given_y`,
at every snapshot of the sampling loop and in the returned counts,
`0 ≤ xGivenYObserved ≤ yObserved ≤ runs ≤ maxTrials` holds.  A snapshot
after `k` consumed completions is the result of running the loop on the
length-`k` prefix of the completion stream (the stream holds one entry per
dispatched trial, so its length is at most `max_runs`); taking `k` at
least the stream length gives the returned counts. -/
theorem sampler_counts_invariant (x_path y_path : List String)
    (y_occurrences_target max_runs : ℕ) (completions : List TrialOutcome)
    (hlen : completions.length ≤ max_runs) (k : ℕ) (c : Counts)
    (hc : p_of_x_given_y x_path y_path y_occurrences_target (completions.take k) = some c) :
    0 ≤ c.x_given_y_occurrences ∧
      c.x_given_y_occurrences ≤ c.y_occurrences ∧
      c.y_occurrences ≤ c.total_runs ∧
      c.total_runs ≤ max_runs := by
  obtain ⟨h1, h2, h3⟩ :=
    consume_le_bounds x_path y_path y_occurrences_target (completions.take k) _ c hc
      (Nat.le_refl 0) (Nat.le_refl 0)
  refine ⟨Nat.zero_le _, h1, h2, ?_⟩
  calc c.total_runs ≤ 0 + (completions.take k).length := h3
    _ = (completions.take k).length := Nat.zero_add _
    _ ≤ completions.length := by
      rw [List.length_take]; exact Nat.min_le_right _ _
    _ ≤ max_runs := hlen

/-- Witness for C1: one completed trial whose summary shows the Y-state
but not the X-state, consumed from a 1-trial invocation. -/
theorem sampler_counts_invariant_witness :
    ([TrialOutcome.completed (RunOutcome.success
        (Json.obj [("y", Json.num 2), ("x", Json.num 0)]))].length ≤ 1) ∧
      (0 ≤ (⟨1, 1, 0⟩ : Counts).x_given_y_occurrences ∧
        (⟨1, 1, 0⟩ : Counts).x_given_y_occurrences ≤ (⟨1, 1, 0⟩ : Counts).y_occurrences ∧
        (⟨1, 1, 0⟩ : Counts).y_occurrences ≤ (⟨1, 1, 0⟩ : Counts).total_runs ∧
        (⟨1, 1, 0⟩ : Counts).total_runs ≤ 1) :=
  ⟨by decide,
    sampler_counts_invariant ["x"] ["y"] 5 1
      [TrialOutcome.completed (RunOutcome.success
        (Json.obj [("y", Json.num 2), ("x", Json.num 0)]))]
      (by decide) 1 ⟨1, 1, 0⟩ (by decide)⟩

/-- C2: If `y_occurrences_target` is reached before all `max_runs`
dispatched trials have been consumed (here: at the snapshot after `k`
consumed completions, `k < max_runs`), `p_of_x_given_y` stops consuming
further results — the returned counts are exactly that snapshot — and the
returned `y_occurrences` (`'total'`) equals the target exactly, never
more.  The model consumes nothing once the break runs, which is the
claim's assumption that cancellation propagates before additional
completions are consumed. -/
theorem sampler_early_stop (x_path y_path : List String)
    (y_occurrences_target max_runs : ℕ) (completions : List TrialOutcome)
    (hlen : completions.length = max_runs) (k : ℕ) (hk : k < max_runs) (c : Counts)
    (hc : p_of_x_given_y x_path y_path y_occurrences_target (completions.take k) = some c)
    (hy : y_occurrences_target ≤ c.y_occurrences) :
    p_of_x_given_y x_path y_path y_occurrences_target completions = some c ∧
      c.y_occurrences = y_occurrences_target := by
  rw [p_of_x_given_y] at hc ⊢
  constructor
  · have hsplit : completions.take k ++ completions.drop k = completions :=
      List.take_append_drop k completions
    rw [← hsplit, consume_append, hc, Option.some_bind]
    exact consume_stopped _ _ _ _ _ hy
  · exact Nat.le_antisymm
      (consume_y_le_target x_path y_path _ _ _ c hc (Nat.zero_le _)) hy

/-- Witness for C2, realising Scenario 3 of the spec: target 2, the
Y-state observed at completions 1 and 3 of 20 dispatched; after the third
completion the snapshot is `runs = 3, y = 2, x = 2`, the sampler stops
there, and the returned total is exactly 2. -/
theorem sampler_early_stop_witness :
    (scenario3_completions.length = 20) ∧ (3 < 20) ∧
      (p_of_x_given_y ["fix"] ["repro"] 2 (scenario3_completions.take 3) =
        some ⟨3, 2, 2⟩) ∧
      (p_of_x_given_y ["fix"] ["repro"] 2 scenario3_completions = some ⟨3, 2, 2⟩ ∧
        (⟨3, 2, 2⟩ : Counts).y_occurrences = 2) :=
  ⟨by decide, by decide, by decide,
    sampler_early_stop ["fix"] ["repro"] 2 20 scenario3_completions (by decide) 3
      (by decide) ⟨3, 2, 2⟩ (by decide) (by decide)⟩

/-- C6: A trial failure — `run_gemini_cli` returning `None` after a
non-zero process exit, a timeout, or a missing or unparseable summary —
never aborts the estimation: each failed trial is counted in
`total_runs` while `y_occurrences` and `x_given_y_occurrences` stay
untouched, so a stream in which every trial fails returns
`runs = completions.length, yObserved = 0, xGivenYObserved = 0` (no
exception), and the corresponding interval cell is the "not applicable"
pair. -/
theorem trial_failures_never_abort (x_path y_path : List String)
    (y_occurrences_target : ℕ) (completions : List TrialOutcome)
    (ht : 0 < y_occurrences_target)
    (hfail : ∀ o ∈ completions, ∃ e, o = TrialOutcome.completed e ∧ run_gemini_cli e = none) :
    p_of_x_given_y x_path y_path y_occurrences_target completions =
        some { total_runs := completions.length, y_occurrences := 0,
               x_given_y_occurrences := 0 } ∧
      format_row_data 0 0 false = some (RowCell.na, RowCell.na) := by
  constructor
  · rw [p_of_x_given_y, consume_all_failed x_path y_path _ completions _ hfail ht]
    simp
  · rfl

/-- Witness for C6, realising Scenario 1 of the spec: 10 trials all fail
(covering all four failure conditions), yielding `runs = 10, yObserved = 0,
xGivenYObserved = 0` and the "not applicable" interval. -/
theorem trial_failures_never_abort_witness :
    (0 < 30) ∧
      (p_of_x_given_y ["x"] ["y"] 30 scenario1_completions =
          some { total_runs := 10, y_occurrences := 0,
                 x_given_y_occurrences := 0 } ∧
        format_row_data 0 0 false = some (RowCell.na, RowCell.na)) :=
  ⟨by decide,
    trial_failures_never_abort ["x"] ["y"] 30 scenario1_completions (by decide)
      (by intro o ho; fin_cases ho <;> exact ⟨_, rfl, rfl⟩)⟩

/-! ### Lemmas about the Wilson interval -/

/-- Comparing under the square: for a real bounded by a nonnegative real
in square, the bound holds outright. -/
theorem le_of_sq_le_sq_of_nonneg (a b : ℝ) (h : a ^ 2 ≤ b ^ 2) (hb : 0 ≤ b) : a ≤ b :=
  calc a ≤ |a| := le_abs_self a
    _ = Real.sqrt (a ^ 2) := (Real.sqrt_sq_eq_abs a).symm
    _ ≤ Real.sqrt (b ^ 2) := Real.sqrt_le_sqrt h
    _ = |b| := Real.sqrt_sq_eq_abs b
    _ = b := abs_of_nonneg hb

/-- The algebraic heart of the Wilson-score interval: for a proportion
`p ∈ [0, 1]`, a positive critical value `z`, a positive sample size `N`
and a nonnegative `s` whose square is the Wilson radicand
`p(1-p)/N + z²/(4N²)`, the interval `center ± z·s/denom` contains `p` and
lies inside `[0, 1]`. -/
theorem wilson_bounds (p z N s : ℝ) (hp0 : 0 ≤ p) (hp1 : p ≤ 1) (hz : 0 < z)
    (hN : 0 < N) (hs0 : 0 ≤ s)
    (hs2 : 4 * N ^ 2 * s ^ 2 = 4 * N * (p * (1 - p)) + z ^ 2) :
    0 ≤ (p + z ^ 2 / (2 * N)) / (1 + z ^ 2 / N) - z * s / (1 + z ^ 2 / N) ∧
      (p + z ^ 2 / (2 * N)) / (1 + z ^ 2 / N) - z * s / (1 + z ^ 2 / N) ≤ p ∧
      p ≤ (p + z ^ 2 / (2 * N)) / (1 + z ^ 2 / N) + z * s / (1 + z ^ 2 / N) ∧
      (p + z ^ 2 / (2 * N)) / (1 + z ^ 2 / N) + z * s / (1 + z ^ 2 / N) ≤ 1 := by
  have hN' : N ≠ 0 := hN.ne'
  have hNz2 : N + z ^ 2 ≠ 0 := by positivity
  have hD : (0 : ℝ) < 2 * (N + z ^ 2) := by positivity
  have h1p : (0 : ℝ) ≤ 1 - p := by linarith
  have eqL : (p + z ^ 2 / (2 * N)) / (1 + z ^ 2 / N) - z * s / (1 + z ^ 2 / N) =
      (2 * N * p + z ^ 2 - 2 * N * (z * s)) / (2 * (N + z ^ 2)) := by
    field_simp
    ring
  have eqU : (p + z ^ 2 / (2 * N)) / (1 + z ^ 2 / N) + z * s / (1 + z ^ 2 / N) =
      (2 * N * p + z ^ 2 + 2 * N * (z * s)) / (2 * (N + z ^ 2)) := by
    field_simp
    ring
  have hzs4 : (2 * N * (z * s)) ^ 2 = z ^ 2 * (4 * N * (p * (1 - p)) + z ^ 2) := by
    rw [← hs2]; ring
  have hns4 : (2 * N * s) ^ 2 = 4 * N * (p * (1 - p)) + z ^ 2 := by
    rw [← hs2]; ring
  have key1 : 2 * N * (z * s) ≤ 2 * N * p + z ^ 2 := by
    refine le_of_sq_le_sq_of_nonneg _ _ ?_ (by positivity)
    rw [hzs4]
    nlinarith [sq_nonneg (N * p), mul_nonneg hN.le (sq_nonneg (p * z))]
  have key2 : z * (1 - 2 * p) ≤ 2 * N * s := by
    refine le_of_sq_le_sq_of_nonneg _ _ ?_ (mul_nonneg (by positivity) hs0)
    rw [hns4]
    nlinarith [mul_nonneg (mul_nonneg hN.le hp0) h1p,
      mul_nonneg (mul_nonneg (sq_nonneg z) hp0) h1p]
  have key3 : z * (2 * p - 1) ≤ 2 * N * s := by
    refine le_of_sq_le_sq_of_nonneg _ _ ?_ (mul_nonneg (by positivity) hs0)
    rw [hns4]
    nlinarith [mul_nonneg (mul_nonneg hN.le hp0) h1p,
      mul_nonneg (mul_nonneg (sq_nonneg z) hp0) h1p]
  have key4 : 2 * N * (z * s) ≤ 2 * N * (1 - p) + z ^ 2 := by
    refine le_of_sq_le_sq_of_nonneg _ _ ?_ ?_
    · rw [hzs4]
      nlinarith [sq_nonneg (N * (1 - p)), mul_nonneg hN.le (sq_nonneg ((1 - p) * z))]
    · have h2N : (0 : ℝ) ≤ 2 * N * (1 - p) := mul_nonneg (by positivity) h1p
      linarith [sq_nonneg z]
  refine ⟨?_, ?_, ?_, ?_⟩
  · rw [eqL]
    apply div_nonneg _ hD.le
    linarith
  · rw [eqL, div_le_iff₀ hD]
    nlinarith [key2, hz.le]
  · rw [eqU, le_div_iff₀ hD]
    nlinarith [key3, hz.le]
  · rw [eqU, div_le_one hD]
    linarith

/-- C3 counterexample: the claim "no two trials of one invocation are
submitted with an identical prompt string" is false on the code.  The
prompt is rendered once per test in `main` (one `uuid.uuid4()` per
invocation, line 351) and lines 164-170 submit that same string for every
element of `range(max_runs)`: in a concrete 2-trial invocation the two
dispatched submissions carry equal prompt strings. -/
theorem dispatched_prompts_not_distinct :
    ¬ (∀ i j : Fin c3_dispatch.length, i ≠ j →
        (c3_dispatch.get i).prompt ≠ (c3_dispatch.get j).prompt) := by
  decide

/-- C3 amended: within one invocation a single prompt instance is
rendered, seeded with one fresh token drawn per test, and every one of
the up-to-`maxTrials` dispatched trials is submitted with exactly that
prompt string. -/
theorem dispatched_prompts_all_identical (uuid wrong_tool_name summary_directory : String)
    (timeout max_runs : ℕ) (s : TrialSubmission)
    (hs : s ∈ dispatch_trials (render_prompt uuid wrong_tool_name) timeout
      summary_directory max_runs) :
    s.prompt = render_prompt uuid wrong_tool_name := by
  simp only [dispatch_trials, List.mem_map] at hs
  obtain ⟨a, -, rfl⟩ := hs
  rfl

/-- Witness for the amended C3: a concrete submission of the 2-trial
invocation, whose prompt is the invocation's rendered prompt. -/
theorem dispatched_prompts_all_identical_witness :
    ((⟨render_prompt "8c9c8796-6f84-4f85-9297-0c9887be1a7c" "github__list_issues", 60,
          "summaries/github__list_issues"⟩ : TrialSubmission) ∈ c3_dispatch) ∧
      (⟨render_prompt "8c9c8796-6f84-4f85-9297-0c9887be1a7c" "github__list_issues", 60,
          "summaries/github__list_issues"⟩ : TrialSubmission).prompt =
        render_prompt "8c9c8796-6f84-4f85-9297-0c9887be1a7c" "github__list_issues" :=
  ⟨by decide,
    dispatched_prompts_all_identical "8c9c8796-6f84-4f85-9297-0c9887be1a7c"
      "github__list_issues" "summaries/github__list_issues" 60 2 _ (by decide)⟩

/-- C7: For every document, path expression and default value,
`get_json_path_value` returns the first matching value in document order
when the expression has at least one match, and returns the supplied
default — rather than raising — when it has zero matches. -/
theorem get_json_path_value_first_match_or_default (data : Json)
    (expression : List String) (default : Json) :
    (∃ v rest, jsonFind expression data = v :: rest ∧
        get_json_path_value data expression default = v) ∨
      (jsonFind expression data = [] ∧
        get_json_path_value data expression default = default) := by
  cases h : jsonFind expression data with
  | nil => exact Or.inr ⟨rfl, by simp only [get_json_path_value, h]⟩
  | cons v rest => exact Or.inl ⟨v, rest, rfl, by simp only [get_json_path_value, h]⟩

/-- C8: The aggregator fold of `main`, for each incoming
`(eval_name, counts)` entry, adds the test's `x_given_y_occurrences`
(`successes`) to the group's `total_successes` and its `y_occurrences`
(`total`) to `total_trials`, and appends `(eval_name, successes, total)`
to the group's `tests` sequence (so earlier entries are never removed or
overwritten and insertion order is preserved), while every other group is
untouched; in particular folding `(successes=1, total=2)` then
`(successes=4, total=5)` into one group yields `total_successes = 5` and
`total_trials = 7`. -/
theorem record_result_characterisation (results_by_group : String → GroupData)
    (group_name eval_name : String) (successes total : ℕ) (g : String) :
    (record_result results_by_group group_name eval_name successes total g =
        if g = group_name then
          { total_successes := (results_by_group group_name).total_successes + successes,
            total_trials := (results_by_group group_name).total_trials + total,
            tests := (results_by_group group_name).tests ++ [(eval_name, successes, total)] }
        else results_by_group g) ∧
      record_result
          (record_result (fun _ => emptyGroupData)
            "Tool Calling Self-Correction" "github__list_issues" 1 2)
          "Tool Calling Self-Correction" "github_list_issues" 4 5
          "Tool Calling Self-Correction" =
        { total_successes := 5, total_trials := 7,
          tests := [("github__list_issues", 1, 2), ("github_list_issues", 4, 5)] } :=
  ⟨rfl, by decide⟩

/-- C9: `safe_divide` is total: it equals `numerator / denominator`
whenever the denominator is non-zero (so multiplying back by the
denominator recovers the numerator), and equals `0` — rather than raising
`ZeroDivisionError` — when the denominator is zero, which is why `main`
reports a conditional rate of `0.0` when no Y-state was ever observed. -/
theorem safe_divide_total_characterisation (numerator denominator : ℚ)
    (h : denominator ≠ 0) :
    safe_divide numerator denominator = numerator / denominator ∧
      safe_divide numerator denominator * denominator = numerator ∧
      safe_divide numerator 0 = 0 := by
  refine ⟨by rw [safe_divide, if_pos h], ?_, by simp [safe_divide]⟩
  rw [safe_divide, if_pos h, div_mul_cancel₀ _ h]

/-- Witness for C9 at a concrete non-zero denominator. -/
theorem safe_divide_total_characterisation_witness :
    ((4 : ℚ) ≠ 0) ∧
      (safe_divide 3 4 = 3 / 4 ∧ safe_divide 3 4 * 4 = 3 ∧ safe_divide 3 0 = 0) :=
  ⟨by decide, safe_divide_total_characterisation 3 4 (by decide)⟩

/-- C5: With `total = 0` the interval estimator `_format_row_data`
returns the defined "not applicable" pair `("N/A", "N/A")` for every
`successes` value and every `is_group` flag, before any division is
attempted; moreover the helper never raises a division fault on any
input (its result is always `some`). -/
theorem format_row_data_na_when_total_zero (successes : ℕ) (is_group : Bool) :
    format_row_data successes 0 is_group = some (RowCell.na, RowCell.na) ∧
      ∀ total : ℕ, (format_row_data successes total is_group).isSome = true := by
  refine ⟨rfl, ?_⟩
  intro total
  cases total with
  | zero => rfl
  | succ n => simp [format_row_data, proportion_confint]

/-- C4: For every `successes = k` and `total = n` with `0 ≤ k ≤ n` and
`n > 0`, the interval estimator used by `_format_row_data` — the Wilson
method at the fixed 95 percent confidence level — yields
`rate = k / n` (the `safe_divide` the helper displays) and bounds with
`0 ≤ lowerBound ≤ k / n ≤ upperBound ≤ 1`. -/
theorem wilson_interval_sound (successes total : ℕ) (hk : successes ≤ total)
    (hn : 0 < total) :
    safe_divide (successes : ℚ) (total : ℚ) = (successes : ℚ) / (total : ℚ) ∧
      ∃ lower upper, proportion_confint successes total = some (lower, upper) ∧
        0 ≤ lower ∧ lower ≤ (successes : ℝ) / (total : ℝ) ∧
          (successes : ℝ) / (total : ℝ) ≤ upper ∧ upper ≤ 1 := by
  have hne : total ≠ 0 := Nat.pos_iff_ne_zero.mp hn
  have hQ : ((total : ℚ)) ≠ 0 := Nat.cast_ne_zero.mpr hne
  refine ⟨by rw [safe_divide, if_pos hQ], ?_⟩
  have hN : (0 : ℝ) < (total : ℝ) := by exact_mod_cast hn
  have hN' : ((total : ℝ)) ≠ 0 := hN.ne'
  have hp0 : (0 : ℝ) ≤ (successes : ℝ) / (total : ℝ) := by positivity
  have hp1 : (successes : ℝ) / (total : ℝ) ≤ 1 := by
    rw [div_le_one hN]; exact_mod_cast hk
  have hz : (0 : ℝ) < z95 := by norm_num [z95]
  have h1p : (0 : ℝ) ≤ 1 - (successes : ℝ) / (total : ℝ) := by linarith
  have hE : (0 : ℝ) ≤ (successes : ℝ) / (total : ℝ) *
        (1 - (successes : ℝ) / (total : ℝ)) / (total : ℝ) +
        z95 ^ 2 / (4 * (total : ℝ) ^ 2) :=
    add_nonneg (div_nonneg (mul_nonneg hp0 h1p) hN.le) (by positivity)
  have hs2 : 4 * (total : ℝ) ^ 2 *
        (Real.sqrt ((successes : ℝ) / (total : ℝ) *
          (1 - (successes : ℝ) / (total : ℝ)) / (total : ℝ) +
          z95 ^ 2 / (4 * (total : ℝ) ^ 2))) ^ 2 =
      4 * (total : ℝ) * ((successes : ℝ) / (total : ℝ) *
        (1 - (successes : ℝ) / (total : ℝ))) + z95 ^ 2 := by
    rw [Real.sq_sqrt hE]
    field_simp
    ring
  have hb := wilson_bounds ((successes : ℝ) / (total : ℝ)) z95 (total : ℝ)
    (Real.sqrt ((successes : ℝ) / (total : ℝ) *
      (1 - (successes : ℝ) / (total : ℝ)) / (total : ℝ) +
      z95 ^ 2 / (4 * (total : ℝ) ^ 2)))
    hp0 hp1 hz hN (Real.sqrt_nonneg _) hs2
  exact ⟨_, _, by simp only [proportion_confint, if_neg hne],
    hb.1, hb.2.1, hb.2.2.1, hb.2.2.2⟩

/-- Witness for C4 at Scenario 2's counts: 3 trials with the Y-state, 2
X-given-Y successes, rate 2/3 and a Wilson interval containing it. -/
theorem wilson_interval_sound_witness :
    ((2 : ℕ) ≤ 3) ∧ (0 < 3) ∧
      (safe_divide ((2 : ℕ) : ℚ) ((3 : ℕ) : ℚ) = ((2 : ℕ) : ℚ) / ((3 : ℕ) : ℚ) ∧
        ∃ lower upper, proportion_confint 2 3 = some (lower, upper) ∧
          0 ≤ lower ∧ lower ≤ ((2 : ℕ) : ℝ) / ((3 : ℕ) : ℝ) ∧
            ((2 : ℕ) : ℝ) / ((3 : ℕ) : ℝ) ≤ upper ∧ upper ≤ 1) :=
  ⟨by decide, by decide, wilson_interval_sound 2 3 (by decide) (by decide)⟩

/-- C10: The output of `_format_row_data` does not depend on its unused
`is_group` argument: group header rows and per-test rows with equal
counts render identical rate and interval cells. -/
theorem format_row_data_ignores_is_group (successes total : ℕ) :
    format_row_data successes total true = format_row_data successes total false := rfl

end EvalTools
